import Mathlib

/-!
# Shallow embedding of the sendnotes offline-sync subsystem

This file embeds the offline store (`src/js/offline-store.js`) and the
API client / sync engine (`src/js/api.js`, the Supabase variant) of the
sendnotes PWA, and proves or refutes the frozen claims about them.

Modelling conventions:
* The IndexedDB-backed store is a `Store`: a keyed list of items (the
  `items` object store), a list of queued operations (the `sync_queue`
  object store, kept in `queueId` order as IndexedDB's `getAll` returns
  records in key order), and a `nextQueueId` counter standing for the
  store's auto-increment key generator.
* Clock reads (`Date.now()`, `new Date().toISOString()`,
  `getCurrentWeekMonday()`) are externalized as explicit parameters:
  time values are `Nat`, week keys are opaque `String`s except in the
  week-key computation itself, which is modelled on integer epoch days.
* The remote Supabase gateway is an oracle `Gateway` of pure functions;
  `none` / `false` results model a failed remote call (network error or
  error response).  API functions return the resulting store together
  with the list of gateway calls they issued (`GwCall`), and a status
  modelling a thrown / not-thrown JS error.
-/

namespace Sendnotes

/-- An item record as stored in the `items` object store.  Optional text
fields are `Option String` (`none` = field absent/undefined). -/
structure Item where
  id : String
  url : Option String := none
  title : Option String := none
  notes : Option String := none
  category : Option String := none
  status : String := "active"
  week_of : String := ""
  created_at : Nat := 0
  updated_at : Nat := 0
  synced : Bool := false
deriving DecidableEq, Repr

/-- The partial field set passed by callers to create/update (the `data`
object); `none` means the key is absent from the object. -/
structure Fields where
  url : Option String := none
  title : Option String := none
  notes : Option String := none
  category : Option String := none
  status : Option String := none
deriving DecidableEq, Repr

/-- Payload of a queued operation, one variant per `type` tag.
`create` carries the temp id, the caller data and the frozen `week_of`
(the code enqueues `{ type: 'create', tempId, data: { ...data, week_of: weekOf } }`);
`update`/`delete` carry the target id (and data); `archive` carries the
week key captured at `archiveItems` call time. -/
inductive OpPayload where
  | create (tempId : String) (data : Fields) (week_of : String)
  | update (id : String) (data : Fields)
  | delete (id : String)
  | archive (weekOf : String)
deriving DecidableEq, Repr

/-- A record of the `sync_queue` object store: auto-assigned `queueId`,
the `timestamp: Date.now()` added by `queueOperation`, and the payload. -/
structure QueuedOp where
  queueId : Nat
  timestamp : Nat
  payload : OpPayload
deriving DecidableEq, Repr

/-- The durable local state: the `items` store (keyed by `id`), the
`sync_queue` store in key (`queueId`) order, and the auto-increment
counter for queue keys. -/
structure Store where
  items : List Item := []
  queue : List QueuedOp := []
  nextQueueId : Nat := 1
deriving DecidableEq, Repr

/-- Keyed upsert: `store.put(item)` replaces the record with the same key
or inserts a new one. -/
def putItemL : List Item → Item → List Item
  | [], it => [it]
  | x :: xs, it => if x.id = it.id then it :: xs else x :: putItemL xs it

/-- `OfflineStore.saveItem(item)`: `store.put(item)` on the items store. -/
def saveItem (s : Store) (it : Item) : Store :=
  { s with items := putItemL s.items it }

/-- `OfflineStore.getItem(id)`: `store.get(id)`; `none` models the
"not found" (undefined) result. -/
def getItem (s : Store) (id : String) : Option Item :=
  s.items.find? (fun x => x.id == id)

/-- `OfflineStore.deleteItem(id)`: `store.delete(id)` on the items store
(removes the record with that key; idempotent). -/
def deleteItemLocal (s : Store) (id : String) : Store :=
  { s with items := s.items.filter (fun x => x.id != id) }

/-- Sorting comparator of `getActiveItems`: `created_at` descending. -/
def createdDesc (a b : Item) : Prop := b.created_at ≤ a.created_at

instance : DecidableRel createdDesc := fun a b =>
  inferInstanceAs (Decidable (b.created_at ≤ a.created_at))

/-- `OfflineStore.getActiveItems()`: all items with status `active`,
sorted by `created_at` descending. -/
def getActiveItems (s : Store) : List Item :=
  List.insertionSort createdDesc (s.items.filter (fun it => it.status == "active"))

/-- `OfflineStore.markSynced(tempId, serverItem)`: in one transaction,
delete the temp record when `tempId !== serverItem.id`, then put
`{ ...serverItem, synced: true }`. -/
def markSynced (s : Store) (tempId : String) (serverItem : Item) : Store :=
  let s1 := if tempId = serverItem.id then s else deleteItemLocal s tempId
  saveItem s1 { serverItem with synced := true }

/-- `OfflineStore.queueOperation(operation)`: `store.add` with an
auto-increment key and `timestamp: Date.now()` (the clock value `ts` is
passed in explicitly). -/
def queueOperation (s : Store) (ts : Nat) (p : OpPayload) : Store :=
  { s with
    queue := s.queue ++ [⟨s.nextQueueId, ts, p⟩],
    nextQueueId := s.nextQueueId + 1 }

/-- `OfflineStore.removeFromQueue(queueId)`: delete by key; idempotent. -/
def removeFromQueue (s : Store) (qid : Nat) : Store :=
  { s with queue := s.queue.filter (fun op => op.queueId != qid) }

/-- Sorting relation of `getQueuedOperations`: the comparator
`(a, b) => a.timestamp - b.timestamp` (ascending timestamp). -/
def tsLe (a b : QueuedOp) : Prop := a.timestamp ≤ b.timestamp

instance : DecidableRel tsLe := fun a b =>
  inferInstanceAs (Decidable (a.timestamp ≤ b.timestamp))

instance : IsTotal QueuedOp tsLe :=
  ⟨fun a b => Nat.le_total a.timestamp b.timestamp⟩

instance : IsTrans QueuedOp tsLe :=
  ⟨fun _ _ _ h h' => Nat.le_trans h h'⟩

/-- `OfflineStore.getQueuedOperations()`: `getAll` returns the queue in
key (`queueId`) order, which the code then sorts by `timestamp`
ascending with JavaScript's stable sort. -/
def getQueuedOperations (s : Store) : List QueuedOp :=
  List.insertionSort tsLe s.queue

/-- `OfflineStore.replaceAllItems(serverItems)`: one transaction on the
items store only: clear it, then put every server item with
`synced: true`.  The sync queue is not part of the transaction. -/
def replaceAllItems (s : Store) (serverItems : List Item) : Store :=
  { s with
    items := serverItems.foldl (fun acc it => putItemL acc { it with synced := true }) [] }

/-- `OfflineStore.archiveActiveItems()`: fetch the active items, then in
one transaction put each of them back with `status: 'archived'` (the
other fields, including `synced`, are spread through unchanged). -/
def archiveActiveItems (s : Store) : Store :=
  (getActiveItems s).foldl (fun st it => saveItem st { it with status := "archived" }) s

/-- The `id.startsWith('temp_')` check of `updateItem`/`deleteItem`,
written as a pattern match on the character list so it is kernel-reducible
(`String.startsWith` itself does not reduce). -/
def isTempId (id : String) : Bool :=
  match id.data with
  | 't' :: 'e' :: 'm' :: 'p' :: '_' :: _ => true
  | _ => false

/-- The day-of-week of an epoch day count, as JavaScript's
`Date.getDay()` numbers it: 0 = Sunday, ..., 6 = Saturday.
Day 0 (1970-01-01) was a Thursday, hence the offset 4. -/
def getDay (d : Int) : Int := (d + 4) % 7

/-- `getCurrentWeekMonday()` modelled on integer epoch days: the code
computes `diff = now.getDate() - day + (day === 0 ? -6 : 1)` and renders
that date as an ISO `YYYY-MM-DD` string; on epoch days the same
arithmetic is `d - getDay d + (if getDay d = 0 then -6 else 1)`. -/
def getCurrentWeekMonday (d : Int) : Int :=
  d - getDay d + (if getDay d = 0 then -6 else 1)

/-- One remote call issued to the Supabase gateway, with the arguments
the sync engine passes (create: field data and `week_of`; update: target
id and data; delete: target id; archive: the targeted `week_of`). -/
inductive GwCall where
  | create (data : Fields) (week_of : String)
  | update (id : String) (data : Fields)
  | delete (id : String)
  | archive (weekOf : String)
deriving DecidableEq, Repr

/-- The remote gateway as a deterministic oracle.  `none`/`false`
results model a failed call (thrown error or error response); `some`
results carry the server-returned row. -/
structure Gateway where
  create : Fields → String → Option Item
  update : String → Fields → Option Item
  delete : String → Bool
  archive : String → Bool
  list : String → Option (List Item)

/-- Errors the API surfaces to its caller by throwing. -/
inductive ApiError where
  | notFound
deriving DecidableEq, Repr

/-- Result of one API-level operation: the store afterwards, the gateway
calls issued (in order), and the thrown/normal outcome. -/
structure ApiResult where
  store : Store
  calls : List GwCall
  result : Except ApiError Unit
deriving Repr

/-- The optimistic local record built by `createItem`: `{ id: tempId,
...data, status: 'active', week_of: weekOf, created_at, updated_at,
synced: false }` (the literal's later keys override `data`'s). -/
def mkLocalItem (tempId : String) (d : Fields) (weekOf : String) (now : Nat) : Item :=
  { id := tempId
    url := d.url
    title := d.title
    notes := d.notes
    category := d.category
    status := "active"
    week_of := weekOf
    created_at := now
    updated_at := now
    synced := false }

/-- Merge an absent-able field over an existing optional field:
`{ ...existingItem, ...data }` keeps the old value when the key is
absent from `data`. -/
def overOpt (newv old : Option String) : Option String :=
  match newv with
  | some v => some v
  | none => old

/-- The object spread `{ ...existingItem, ...data }` of `updateItem`. -/
def applyFields (it : Item) (d : Fields) : Item :=
  { it with
    url := overOpt d.url it.url
    title := overOpt d.title it.title
    notes := overOpt d.notes it.notes
    category := overOpt d.category it.category
    status := (d.status).getD it.status }

/-- `API.createItem(data)`.  The generated temp id, the captured
`getCurrentWeekMonday()` week key and the clock values are parameters;
`online` is `navigator.onLine`. -/
def createItem (gw : Gateway) (online : Bool) (s : Store)
    (tempId weekOf : String) (d : Fields) (now ts : Nat) : ApiResult :=
  let localItem := mkLocalItem tempId d weekOf now
  let s1 := saveItem s localItem
  if !online then
    ⟨queueOperation s1 ts (.create tempId d weekOf), [], .ok ()⟩
  else
    match gw.create d weekOf with
    | some serverItem => ⟨markSynced s1 tempId serverItem, [.create d weekOf], .ok ()⟩
    | none => ⟨queueOperation s1 ts (.create tempId d weekOf), [.create d weekOf], .ok ()⟩

/-- `API.updateItem(id, data)`.  Throws `Item not found` when the id is
absent locally; otherwise saves the merged record (forcing
`synced: false` only for temp ids), then queues or calls remotely. -/
def updateItem (gw : Gateway) (online : Bool) (s : Store)
    (id : String) (d : Fields) (now ts : Nat) : ApiResult :=
  let isTemp := isTempId id
  match getItem s id with
  | none => ⟨s, [], .error .notFound⟩
  | some existingItem =>
    let updatedItem :=
      { applyFields existingItem d with
        updated_at := now
        synced := if isTemp then false else existingItem.synced }
    let s1 := saveItem s updatedItem
    if !online || isTemp then
      if !isTemp then ⟨queueOperation s1 ts (.update id d), [], .ok ()⟩
      else ⟨s1, [], .ok ()⟩
    else
      match gw.update id d with
      | some serverItem => ⟨markSynced s1 id serverItem, [.update id d], .ok ()⟩
      | none => ⟨queueOperation s1 ts (.update id d), [.update id d], .ok ()⟩

/-- `API.deleteItem(id)`.  An absent id silently returns (the code has
no `else` branch for `if (existingItem)`); a present record is saved as
`{ status: 'deleted', synced: false }` first, then handled per branch. -/
def deleteItem (gw : Gateway) (online : Bool) (s : Store)
    (id : String) (ts : Nat) : ApiResult :=
  let isTemp := isTempId id
  match getItem s id with
  | none => ⟨s, [], .ok ()⟩
  | some existingItem =>
    let s1 := saveItem s { existingItem with status := "deleted", synced := false }
    if !online || isTemp then
      if !isTemp then ⟨queueOperation s1 ts (.delete id), [], .ok ()⟩
      else ⟨deleteItemLocal s1 id, [], .ok ()⟩
    else
      if gw.delete id then ⟨deleteItemLocal s1 id, [.delete id], .ok ()⟩
      else ⟨queueOperation s1 ts (.delete id), [.delete id], .ok ()⟩

/-- `API.archiveItems()`.  `weekOf` is `getCurrentWeekMonday()` captured
at call time; offline or on remote failure the operation is queued with
that captured week key. -/
def archiveItems (gw : Gateway) (online : Bool) (s : Store)
    (weekOf : String) (ts : Nat) : ApiResult :=
  if !online then
    ⟨queueOperation (archiveActiveItems s) ts (.archive weekOf), [], .ok ()⟩
  else
    if gw.archive weekOf then ⟨archiveActiveItems s, [.archive weekOf], .ok ()⟩
    else ⟨queueOperation (archiveActiveItems s) ts (.archive weekOf), [.archive weekOf], .ok ()⟩

/-- The gateway call that replaying a queued operation issues; its
arguments come from the payload alone (`op.data`, `op.data.week_of`,
`op.id`, `op.weekOf`). -/
def toCall : OpPayload → GwCall
  | .create _ d w => .create d w
  | .update i d => .update i d
  | .delete i => .delete i
  | .archive w => .archive w

/-- Whether the gateway call for a payload succeeds under the oracle. -/
def opOk (gw : Gateway) : OpPayload → Bool
  | .create _ d w => (gw.create d w).isSome
  | .update i d => (gw.update i d).isSome
  | .delete i => gw.delete i
  | .archive w => gw.archive w

/-- The body of one iteration of the `syncQueue` replay loop, on the
success path: the local reconciliation for the operation followed by
`removeFromQueue(op.queueId)`.  On failure the store is untouched. -/
def syncStep (gw : Gateway) (s : Store) (op : QueuedOp) : Store :=
  match op.payload with
  | .create tempId d w =>
    match gw.create d w with
    | some serverItem => removeFromQueue (markSynced s tempId serverItem) op.queueId
    | none => s
  | .update i d =>
    match gw.update i d with
    | some serverItem => removeFromQueue (markSynced s i serverItem) op.queueId
    | none => s
  | .delete i =>
    if gw.delete i then removeFromQueue (deleteItemLocal s i) op.queueId else s
  | .archive w =>
    if gw.archive w then removeFromQueue s op.queueId else s

/-- Result of `syncQueue`: the store afterwards, the operations for
which a gateway call was attempted (in replay order), and the
`{ synced, failed }` counters. -/
structure SyncResult where
  store : Store
  attempted : List QueuedOp
  synced : Nat
  failed : Nat
deriving Repr

/-- The gateway calls a replay issued, one per attempted operation. -/
def SyncResult.gwCalls (r : SyncResult) : List GwCall :=
  r.attempted.map (fun op => toCall op.payload)

/-- `API.syncQueue()`: offline returns `{ synced: 0, failed: 0 }`;
online it iterates over `getQueuedOperations()` with a `try`/`catch`
per operation — a failed call increments `failed` and the loop
continues with the next operation. -/
def syncQueue (gw : Gateway) (online : Bool) (s : Store) : SyncResult :=
  if !online then ⟨s, [], 0, 0⟩
  else
    (getQueuedOperations s).foldl
      (fun r op =>
        if opOk gw op.payload then
          ⟨syncStep gw r.store op, r.attempted ++ [op], r.synced + 1, r.failed⟩
        else
          ⟨r.store, r.attempted ++ [op], r.synced, r.failed + 1⟩)
      ⟨s, [], 0, 0⟩

/-- `API.fullSync()`: drain the queue, then fetch the active items of
the current week and `replaceAllItems`; returns `false` offline or when
the fetch fails. -/
def fullSync (gw : Gateway) (online : Bool) (s : Store) (weekOf : String) : Store × Bool :=
  if !online then (s, false)
  else
    let r := syncQueue gw true s
    match gw.list weekOf with
    | some serverItems => (replaceAllItems r.store serverItems, true)
    | none => (r.store, false)

/-! ## Store lemmas -/

theorem find?_putItemL (l : List Item) (it : Item) (i : String) :
    (putItemL l it).find? (fun x => x.id == i) =
      if it.id = i then some it else l.find? (fun x => x.id == i) := by
  induction l with
  | nil =>
    by_cases h : it.id = i
    · rw [if_pos h]
      exact List.find?_cons_of_pos _ (by simp [h])
    · rw [if_neg h]
      show List.find? _ [it] = List.find? _ []
      rw [List.find?_cons_of_neg _ (by simp [h])]
  | cons x xs ih =>
    unfold putItemL
    by_cases hx : x.id = it.id
    · rw [if_pos hx]
      by_cases h : it.id = i
      · rw [if_pos h]
        exact List.find?_cons_of_pos _ (by simp [h])
      · rw [if_neg h]
        rw [List.find?_cons_of_neg _ (by simp [h]),
          List.find?_cons_of_neg _ (by simp [hx ▸ h])]
    · rw [if_neg hx]
      by_cases hxi : x.id = i
      · have h : it.id ≠ i := fun he => hx (hxi.trans he.symm)
        rw [if_neg h]
        rw [List.find?_cons_of_pos _ (by simp [hxi]),
          List.find?_cons_of_pos _ (by simp [hxi])]
      · rw [List.find?_cons_of_neg _ (by simp [hxi]),
          List.find?_cons_of_neg _ (by simp [hxi]), ih]

theorem getItem_saveItem (s : Store) (it : Item) (i : String) :
    getItem (saveItem s it) i = if it.id = i then some it else getItem s i := by
  simp only [getItem, saveItem]
  exact find?_putItemL s.items it i

theorem getItem_deleteItemLocal (s : Store) (id i : String) :
    getItem (deleteItemLocal s id) i = if id = i then none else getItem s i := by
  unfold getItem deleteItemLocal
  by_cases h : id = i
  · subst h
    simp only [if_pos rfl]
    apply List.find?_eq_none.2
    intro x hx
    have hne := (List.mem_filter.1 hx).2
    simp only [bne_iff_ne, ne_eq] at hne
    simp [hne]
  · simp only [if_neg h]
    show List.find? _ (List.filter _ s.items) = List.find? _ s.items
    induction s.items with
    | nil => rfl
    | cons x xs ih =>
      by_cases hx : x.id = id
      · rw [List.filter_cons_of_neg (by simp [hx])]
        rw [List.find?_cons_of_neg _ (by simp only [beq_iff_eq, hx]; exact h)]
        exact ih
      · rw [List.filter_cons_of_pos (by simp [hx])]
        by_cases hxi : x.id = i
        · rw [List.find?_cons_of_pos _ (by simp [hxi]),
            List.find?_cons_of_pos _ (by simp [hxi])]
        · rw [List.find?_cons_of_neg _ (by simp [hxi]),
            List.find?_cons_of_neg _ (by simp [hxi])]
          exact ih

theorem getItem_markSynced (s : Store) (tempId : String) (serverItem : Item)
    (h : tempId ≠ serverItem.id) :
    getItem (markSynced s tempId serverItem) tempId = none := by
  unfold markSynced
  simp only [if_neg h]
  rw [getItem_saveItem]
  rw [if_neg (fun he => h he.symm)]
  rw [getItem_deleteItemLocal, if_pos rfl]

theorem getItem_markSynced_perm (s : Store) (tempId : String) (serverItem : Item) :
    getItem (markSynced s tempId serverItem) serverItem.id =
      some { serverItem with synced := true } := by
  unfold markSynced
  by_cases h : tempId = serverItem.id <;>
    simp [h, getItem_saveItem]

/-- None of the item-store operations touch the sync queue or the queue
key counter. -/
theorem queue_frame (s : Store) (it : Item) (id tempId : String) (serverItem : Item)
    (serverItems : List Item) :
    (saveItem s it).queue = s.queue ∧
    (deleteItemLocal s id).queue = s.queue ∧
    (markSynced s tempId serverItem).queue = s.queue ∧
    (replaceAllItems s serverItems).queue = s.queue ∧
    (archiveActiveItems s).queue = s.queue ∧
    (saveItem s it).nextQueueId = s.nextQueueId ∧
    (deleteItemLocal s id).nextQueueId = s.nextQueueId ∧
    (markSynced s tempId serverItem).nextQueueId = s.nextQueueId ∧
    (replaceAllItems s serverItems).nextQueueId = s.nextQueueId ∧
    (archiveActiveItems s).nextQueueId = s.nextQueueId := by
  refine ⟨rfl, rfl, ?_, rfl, ?_, rfl, rfl, ?_, rfl, ?_⟩
  · unfold markSynced
    by_cases h : tempId = serverItem.id <;> simp [h, saveItem, deleteItemLocal]
  · unfold archiveActiveItems
    generalize getActiveItems s = l
    induction l generalizing s with
    | nil => rfl
    | cons x xs ih => simpa [saveItem] using ih _
  · unfold markSynced
    by_cases h : tempId = serverItem.id <;> simp [h, saveItem, deleteItemLocal]
  · unfold archiveActiveItems
    generalize getActiveItems s = l
    induction l generalizing s with
    | nil => rfl
    | cons x xs ih => simpa [saveItem] using ih _

theorem markSynced_queue (s : Store) (tempId : String) (serverItem : Item) :
    (markSynced s tempId serverItem).queue = s.queue :=
  (queue_frame s ⟨"", none, none, none, none, "", "", 0, 0, false⟩ "" tempId serverItem []).2.2.1

theorem archiveActiveItems_queue (s : Store) :
    (archiveActiveItems s).queue = s.queue :=
  (queue_frame s ⟨"", none, none, none, none, "", "", 0, 0, false⟩ "" "" ⟨"", none, none, none, none, "", "", 0, 0, false⟩ []).2.2.2.2.1

theorem archiveActiveItems_next (s : Store) :
    (archiveActiveItems s).nextQueueId = s.nextQueueId :=
  (queue_frame s ⟨"", none, none, none, none, "", "", 0, 0, false⟩ "" "" ⟨"", none, none, none, none, "", "", 0, 0, false⟩ []).2.2.2.2.2.2.2.2.2

/-! ## Characterization of `archiveActiveItems` -/

theorem getItem_foldSave_of_not_mem (g : Item → Item) (hg : ∀ x, (g x).id = x.id)
    (l : List Item) (s : Store) (i : String) (h : ∀ x ∈ l, x.id ≠ i) :
    getItem (l.foldl (fun st x => saveItem st (g x)) s) i = getItem s i := by
  induction l generalizing s with
  | nil => rfl
  | cons a l ih =>
    have ha : (g a).id ≠ i := by rw [hg]; exact h a (List.mem_cons_self a l)
    rw [List.foldl_cons, ih _ (fun x hx => h x (List.mem_cons_of_mem a hx)),
      getItem_saveItem, if_neg ha]

theorem getItem_foldSave_of_mem (g : Item → Item) (hg : ∀ x, (g x).id = x.id)
    (l : List Item) (s : Store) (it : Item)
    (hnd : (l.map (fun x => x.id)).Nodup) (hmem : it ∈ l) :
    getItem (l.foldl (fun st x => saveItem st (g x)) s) it.id = some (g it) := by
  induction l generalizing s with
  | nil => exact absurd hmem (List.not_mem_nil it)
  | cons a l ih =>
    rw [List.map_cons, List.nodup_cons] at hnd
    rcases List.mem_cons.1 hmem with h | h
    · subst h
      rw [List.foldl_cons]
      rw [getItem_foldSave_of_not_mem g hg l _ _
        (fun x hx he => hnd.1 (by rw [← he]; exact List.mem_map_of_mem (fun y => y.id) hx))]
      rw [getItem_saveItem, if_pos (hg it)]
    · rw [List.foldl_cons]
      exact ih _ hnd.2 h

theorem getItem_archiveActiveItems (s : Store) (it : Item)
    (hnd : (s.items.map (fun x => x.id)).Nodup)
    (hmem : it ∈ s.items) (hact : it.status = "active") :
    getItem (archiveActiveItems s) it.id = some { it with status := "archived" } := by
  unfold archiveActiveItems
  have hfil : it ∈ s.items.filter (fun x => x.status == "active") :=
    List.mem_filter.2 ⟨hmem, by simp [hact]⟩
  have hperm : List.Perm (getActiveItems s) (s.items.filter (fun x => x.status == "active")) :=
    List.perm_insertionSort _ _
  have hmem' : it ∈ getActiveItems s := hperm.mem_iff.2 hfil
  have hnd' : ((getActiveItems s).map (fun x => x.id)).Nodup := by
    refine (hperm.map (fun x => x.id)).nodup_iff.2 ?_
    exact hnd.sublist ((List.filter_sublist s.items).map (fun x => x.id))
  exact getItem_foldSave_of_mem (fun x => { x with status := "archived" })
    (fun _ => rfl) _ s it hnd' hmem'

/-! ## Characterization of `syncQueue` -/

/-- Abbreviation for the loop body of `syncQueue`. -/
def syncFoldStep (gw : Gateway) (r : SyncResult) (op : QueuedOp) : SyncResult :=
  if opOk gw op.payload then
    ⟨syncStep gw r.store op, r.attempted ++ [op], r.synced + 1, r.failed⟩
  else
    ⟨r.store, r.attempted ++ [op], r.synced, r.failed + 1⟩

theorem syncQueue_eq_foldl (gw : Gateway) (s : Store) :
    syncQueue gw true s = (getQueuedOperations s).foldl (syncFoldStep gw) ⟨s, [], 0, 0⟩ := by
  unfold syncQueue syncFoldStep
  rfl

/-- Queue effect of one replay iteration: success removes exactly the
operation's `queueId` from the queue, failure leaves it untouched. -/
theorem syncStep_queue (gw : Gateway) (s : Store) (op : QueuedOp) :
    (syncStep gw s op).queue =
      if opOk gw op.payload then s.queue.filter (fun q => q.queueId != op.queueId)
      else s.queue := by
  unfold syncStep opOk
  cases hp : op.payload with
  | create tempId d w =>
    cases hc : gw.create d w with
    | some serverItem => simp [removeFromQueue, markSynced_queue, hc]
    | none => simp [hc]
  | update i d =>
    cases hc : gw.update i d with
    | some serverItem => simp [removeFromQueue, markSynced_queue, hc]
    | none => simp [hc]
  | delete i =>
    cases hc : gw.delete i with
    | true => simp [removeFromQueue, deleteItemLocal, hc]
    | false => simp [hc]
  | archive w =>
    cases hc : gw.archive w with
    | true => simp [removeFromQueue, hc]
    | false => simp [hc]

theorem syncFold_attempted (gw : Gateway) (L : List QueuedOp) (r : SyncResult) :
    (L.foldl (syncFoldStep gw) r).attempted = r.attempted ++ L := by
  induction L generalizing r with
  | nil => simp
  | cons op L ih =>
    rw [List.foldl_cons, ih]
    unfold syncFoldStep
    by_cases h : opOk gw op.payload = true <;> simp [h]

theorem syncFold_synced (gw : Gateway) (L : List QueuedOp) (r : SyncResult) :
    (L.foldl (syncFoldStep gw) r).synced =
      r.synced + L.countP (fun op => opOk gw op.payload) := by
  induction L generalizing r with
  | nil => simp
  | cons op L ih =>
    rw [List.foldl_cons, ih]
    unfold syncFoldStep
    by_cases h : opOk gw op.payload = true
    · simp [h, List.countP_cons]
      omega
    · simp [h, List.countP_cons]

theorem syncFold_failed (gw : Gateway) (L : List QueuedOp) (r : SyncResult) :
    (L.foldl (syncFoldStep gw) r).failed =
      r.failed + L.countP (fun op => !(opOk gw op.payload)) := by
  induction L generalizing r with
  | nil => simp
  | cons op L ih =>
    rw [List.foldl_cons, ih]
    unfold syncFoldStep
    by_cases h : opOk gw op.payload = true
    · simp [h, List.countP_cons]
    · simp [h, List.countP_cons]
      omega

theorem syncFold_queue (gw : Gateway) (L : List QueuedOp) (r : SyncResult) :
    (L.foldl (syncFoldStep gw) r).store.queue =
      r.store.queue.filter
        (fun q => !(L.any (fun op => opOk gw op.payload && op.queueId == q.queueId))) := by
  induction L generalizing r with
  | nil => simp
  | cons op L ih =>
    rw [List.foldl_cons, ih]
    unfold syncFoldStep
    by_cases h : opOk gw op.payload = true
    · rw [if_pos h]
      show ((syncStep gw r.store op).queue.filter _) = _
      rw [syncStep_queue, if_pos h, List.filter_filter]
      apply List.filter_congr
      intro q _
      simp only [h, List.any_cons, true_and, Bool.not_or]
      rw [Bool.and_comm]
      congr 1
      by_cases he : q.queueId = op.queueId
      · simp [he]
      · have h1 : (q.queueId != op.queueId) = true := by simp [he]
        have h2 : (op.queueId == q.queueId) = false := by simp [Ne.symm he]
        rw [h1, h2]
        rfl
    · rw [if_neg h]
      show (r.store.queue.filter _) = _
      apply List.filter_congr
      intro q _
      simp only [List.any_cons, Bool.not_or]
      have : (opOk gw op.payload && op.queueId == q.queueId) = false := by
        simp [Bool.eq_false_iff.2 h]
      rw [this]
      simp

/-! ## Offline-path evaluation lemmas and helpers -/

/-- Whether a queued operation targets the given item id. -/
def refersTo (op : QueuedOp) (id : String) : Bool :=
  match op.payload with
  | .create t _ _ => t == id
  | .update i _ => i == id
  | .delete i => i == id
  | .archive _ => false

/-- A gateway on which every remote call fails. -/
def gwNone : Gateway :=
  ⟨fun _ _ => none, fun _ _ => none, fun _ => false, fun _ => false, fun _ => none⟩

/-- A gateway on which every remote call succeeds (returning a fixed
server row for create/update). -/
def gwAllOk : Gateway :=
  ⟨fun d w => some (mkLocalItem "srv" d w 0),
   fun i d => some (mkLocalItem i d "" 0),
   fun _ => true, fun _ => true, fun _ => some []⟩

/-- A gateway on which deletes fail but archives succeed. -/
def gwDelFails : Gateway :=
  ⟨fun _ _ => none, fun _ _ => none, fun _ => false, fun _ => true, fun _ => none⟩

theorem getItem_queueOperation (s : Store) (ts : Nat) (p : OpPayload) (i : String) :
    getItem (queueOperation s ts p) i = getItem s i := rfl

theorem createItem_offline (gw : Gateway) (s : Store) (tempId weekOf : String)
    (d : Fields) (now ts : Nat) :
    createItem gw false s tempId weekOf d now ts =
      ⟨queueOperation (saveItem s (mkLocalItem tempId d weekOf now)) ts
        (.create tempId d weekOf), [], .ok ()⟩ := rfl

theorem archiveItems_offline (gw : Gateway) (s : Store) (weekOf : String) (ts : Nat) :
    archiveItems gw false s weekOf ts =
      ⟨queueOperation (archiveActiveItems s) ts (.archive weekOf), [], .ok ()⟩ := rfl

theorem updateItem_temp (gw : Gateway) (online : Bool) (s : Store) (id : String)
    (d : Fields) (now ts : Nat) (ex : Item)
    (h1 : isTempId id = true) (hex : getItem s id = some ex) :
    updateItem gw online s id d now ts =
      ⟨saveItem s { applyFields ex d with updated_at := now, synced := false },
        [], .ok ()⟩ := by
  unfold updateItem
  rw [hex]
  simp [h1]

theorem updateItem_offline_perm (gw : Gateway) (s : Store) (id : String)
    (d : Fields) (now ts : Nat) (ex : Item)
    (h1 : isTempId id = false) (hex : getItem s id = some ex) :
    updateItem gw false s id d now ts =
      ⟨queueOperation
          (saveItem s { applyFields ex d with updated_at := now, synced := ex.synced })
          ts (.update id d),
        [], .ok ()⟩ := by
  unfold updateItem
  rw [hex]
  simp [h1]

theorem deleteItem_temp_offline (gw : Gateway) (s : Store) (id : String)
    (ts : Nat) (ex : Item)
    (h1 : isTempId id = true) (hex : getItem s id = some ex) :
    deleteItem gw false s id ts =
      ⟨deleteItemLocal (saveItem s { ex with status := "deleted", synced := false }) id,
        [], .ok ()⟩ := by
  unfold deleteItem
  rw [hex]
  simp [h1]

theorem deleteItem_offline_perm (gw : Gateway) (s : Store) (id : String)
    (ts : Nat) (ex : Item)
    (h1 : isTempId id = false) (hex : getItem s id = some ex) :
    deleteItem gw false s id ts =
      ⟨queueOperation (saveItem s { ex with status := "deleted", synced := false })
          ts (.delete id),
        [], .ok ()⟩ := by
  unfold deleteItem
  rw [hex]
  simp [h1]

theorem getItem_some_id (s : Store) (id : String) (ex : Item)
    (h : getItem s id = some ex) : ex.id = id := by
  have := List.find?_some h
  simpa using this

/-! ## Claims -/

/-- C9: for every timestamp (modelled as an integer epoch day `d`), the
computed week key is the Monday of that day's Monday-based week,
obtained by subtracting 6 when the day-of-week is Sunday and
(day-of-week − 1) otherwise: the code's `getCurrentWeekMonday` equals
that subtraction, lands on a Monday (`getDay` = 1), and is the unique
Monday with `monday ≤ d < monday + 7`. -/
theorem C9_week_key_is_monday (d : Int) :
    getCurrentWeekMonday d = d - (if getDay d = 0 then 6 else getDay d - 1) ∧
    getDay (getCurrentWeekMonday d) = 1 ∧
    getCurrentWeekMonday d ≤ d ∧ d < getCurrentWeekMonday d + 7 := by
  unfold getCurrentWeekMonday getDay
  by_cases h : (d + 4) % 7 = 0
  · simp only [h, if_pos]
    refine ⟨by omega, by omega, by omega, by omega⟩
  · simp only [h, if_neg, if_false]
    refine ⟨by omega, by omega, by omega, by omega⟩

/-- C10: `replaceAllItems` touches only the items store: for every store
and every server item set, the operation queue (and the queue key
counter) afterwards is exactly what it was before; consequently the
replace step of `fullSync` leaves the queue exactly as the preceding
`syncQueue` left it. -/
theorem C10_replaceAll_preserves_queue (s : Store) (serverItems : List Item)
    (gw : Gateway) (weekOf : String) :
    (replaceAllItems s serverItems).queue = s.queue ∧
    (replaceAllItems s serverItems).nextQueueId = s.nextQueueId ∧
    (fullSync gw true s weekOf).1.queue = (syncQueue gw true s).store.queue := by
  refine ⟨rfl, rfl, ?_⟩
  unfold fullSync
  cases h : gw.list weekOf <;> simp [h, replaceAllItems]

/-- C7: for every temporary id and permanent item with `tempId ≠ item.id`,
after `markSynced tempId item` (the embedding of `reconcile`, a single
store transition modelling the single IndexedDB transaction), looking up
`tempId` yields not-found and looking up `item.id` yields the item with
`synced = true`. -/
theorem C7_reconcile_atomic (s : Store) (tempId : String) (item : Item)
    (h : tempId ≠ item.id) :
    getItem (markSynced s tempId item) tempId = none ∧
    getItem (markSynced s tempId item) item.id = some { item with synced := true } :=
  ⟨getItem_markSynced s tempId item h, getItem_markSynced_perm s tempId item⟩

/-- Witness for C7 at a concrete store, temp id and server item. -/
theorem C7_witness :
    getItem (markSynced ⟨[⟨"temp_1", none, none, none, none, "active", "", 0, 0, false⟩], [], 1⟩
        "temp_1" ⟨"p1", none, none, none, none, "active", "", 0, 0, false⟩) "temp_1" = none ∧
    getItem (markSynced ⟨[⟨"temp_1", none, none, none, none, "active", "", 0, 0, false⟩], [], 1⟩
        "temp_1" ⟨"p1", none, none, none, none, "active", "", 0, 0, false⟩) "p1" =
      some ⟨"p1", none, none, none, none, "active", "", 0, 0, true⟩ :=
  C7_reconcile_atomic ⟨[⟨"temp_1", none, none, none, none, "active", "", 0, 0, false⟩], [], 1⟩
    "temp_1" ⟨"p1", none, none, none, none, "active", "", 0, 0, false⟩ (by decide)

/-- C6 (amended): for an id absent from the local store, `updateItem`
surfaces `Item not found` with no remote call and no queue entry and no
store change; `deleteItem`, however, silently returns `ok` — it also
makes no remote call, queues nothing and changes nothing, but surfaces
no error (the code has no else branch for `if (existingItem)`). -/
theorem C6_missing_id (gw : Gateway) (online : Bool) (s : Store) (id : String)
    (d : Fields) (now ts : Nat) (h : getItem s id = none) :
    updateItem gw online s id d now ts = ⟨s, [], .error .notFound⟩ ∧
    deleteItem gw online s id ts = ⟨s, [], .ok ()⟩ := by
  unfold updateItem deleteItem
  rw [h]
  exact ⟨rfl, rfl⟩

/-- Witness for C6 on the empty store. -/
theorem C6_witness :
    updateItem gwNone true ⟨[], [], 1⟩ "p9" ⟨none, none, none, none, none⟩ 0 0
      = ⟨⟨[], [], 1⟩, [], .error .notFound⟩ ∧
    deleteItem gwNone true ⟨[], [], 1⟩ "p9" 0 = ⟨⟨[], [], 1⟩, [], .ok ()⟩ :=
  C6_missing_id gwNone true ⟨[], [], 1⟩ "p9" ⟨none, none, none, none, none⟩ 0 0 rfl

/-- Counterexample to C6 as stated: deleting an id absent from the local
store does not surface a `NotFoundError` — the call returns normally. -/
theorem C6_counterexample :
    (deleteItem gwNone true ⟨[], [], 1⟩ "missing" 0).result = Except.ok () ∧
    (deleteItem gwNone true ⟨[], [], 1⟩ "missing" 0).result ≠
      Except.error ApiError.notFound := by
  refine ⟨rfl, ?_⟩
  intro h
  rw [show (deleteItem gwNone true ⟨[], [], 1⟩ "missing" 0).result = Except.ok () from rfl] at h
  cases h

/-- C5 (amended): queue replay attempts every queued operation, in
ascending `timestamp` order — `getQueuedOperations` sorts the queue by
`timestamp`, so timestamp (not `queueId`) is authoritative for the
replay order; the attempted list is a permutation of the queue. -/
theorem C5_replay_order (gw : Gateway) (s : Store) :
    (syncQueue gw true s).attempted = getQueuedOperations s ∧
    List.Sorted tsLe (syncQueue gw true s).attempted ∧
    List.Perm (syncQueue gw true s).attempted s.queue := by
  have h1 : (syncQueue gw true s).attempted = getQueuedOperations s := by
    rw [syncQueue_eq_foldl, syncFold_attempted]
    rfl
  refine ⟨h1, ?_, ?_⟩
  · rw [h1]
    exact List.sorted_insertionSort tsLe s.queue
  · rw [h1]
    exact List.perm_insertionSort tsLe s.queue

/-- Counterexample to C5 as stated: with queueIds 1..2 but timestamps
out of order, replay attempts queueId 2 before queueId 1 — the gateway
is not invoked in ascending `queueId` order. -/
theorem C5_counterexample :
    (syncQueue gwAllOk true
        ⟨[], [⟨1, 100, .archive "w1"⟩, ⟨2, 50, .archive "w2"⟩], 3⟩).attempted =
      [⟨2, 50, .archive "w2"⟩, ⟨1, 100, .archive "w1"⟩] ∧
    ¬ List.Chain' (fun a b => a.queueId < b.queueId)
      (syncQueue gwAllOk true
        ⟨[], [⟨1, 100, .archive "w1"⟩, ⟨2, 50, .archive "w2"⟩], 3⟩).attempted := by
  have h1 : (syncQueue gwAllOk true
      ⟨[], [⟨1, 100, .archive "w1"⟩, ⟨2, 50, .archive "w2"⟩], 3⟩).attempted =
      [⟨2, 50, .archive "w2"⟩, ⟨1, 100, .archive "w1"⟩] := by decide
  refine ⟨h1, ?_⟩
  rw [h1]
  intro hch
  rcases List.chain'_cons.1 hch with ⟨hlt, -⟩
  exact absurd hlt (by decide)

/-- C1 (amended): on a gateway failure during queue replay, the failed
operation is not dequeued — it (and every other failing operation)
remains in the queue for the next trigger — but draining does NOT stop:
every queued operation is attempted in the same pass regardless of
earlier failures, each operation is dequeued exactly when its own call
succeeds, and the failure is only counted in `failed`. -/
theorem C1_sync_failure_behavior (gw : Gateway) (s : Store)
    (hnd : (s.queue.map (fun op => op.queueId)).Nodup) :
    (syncQueue gw true s).attempted = getQueuedOperations s ∧
    (syncQueue gw true s).store.queue = s.queue.filter (fun q => !(opOk gw q.payload)) ∧
    (syncQueue gw true s).synced =
      (getQueuedOperations s).countP (fun op => opOk gw op.payload) ∧
    (syncQueue gw true s).failed =
      (getQueuedOperations s).countP (fun op => !(opOk gw op.payload)) := by
  refine ⟨?_, ?_, ?_, ?_⟩
  · rw [syncQueue_eq_foldl, syncFold_attempted]
    rfl
  · rw [syncQueue_eq_foldl, syncFold_queue]
    show s.queue.filter _ = s.queue.filter _
    apply List.filter_congr
    intro q hq
    congr 1
    by_cases hok : opOk gw q.payload = true
    · rw [hok]
      apply List.any_eq_true.2
      refine ⟨q, ?_, by simp [hok]⟩
      unfold getQueuedOperations
      exact (List.mem_insertionSort tsLe).2 hq
    · rw [Bool.eq_false_iff.2 hok]
      apply List.any_eq_false.2
      intro op hop
      unfold getQueuedOperations at hop
      have hmem : op ∈ s.queue := (List.mem_insertionSort tsLe).1 hop
      by_cases hq2 : op.queueId = q.queueId
      · have heq : op = q := List.inj_on_of_nodup_map hnd hmem hq hq2
        rw [heq]
        simp [Bool.eq_false_iff.2 hok]
      · simp [hq2]
  · rw [syncQueue_eq_foldl, syncFold_synced]
    simp
  · rw [syncQueue_eq_foldl, syncFold_failed]
    simp

/-- Witness for C1 on a concrete one-operation queue and the
all-failing gateway: the operation is attempted, stays queued, and is
counted as failed. -/
theorem C1_witness :
    (syncQueue gwNone true ⟨[], [⟨1, 0, .delete "p1"⟩], 2⟩).attempted =
      getQueuedOperations ⟨[], [⟨1, 0, .delete "p1"⟩], 2⟩ ∧
    (syncQueue gwNone true ⟨[], [⟨1, 0, .delete "p1"⟩], 2⟩).store.queue =
      List.filter (fun q => !(opOk gwNone q.payload)) [⟨1, 0, .delete "p1"⟩] ∧
    (syncQueue gwNone true ⟨[], [⟨1, 0, .delete "p1"⟩], 2⟩).synced =
      (getQueuedOperations ⟨[], [⟨1, 0, .delete "p1"⟩], 2⟩).countP
        (fun op => opOk gwNone op.payload) ∧
    (syncQueue gwNone true ⟨[], [⟨1, 0, .delete "p1"⟩], 2⟩).failed =
      (getQueuedOperations ⟨[], [⟨1, 0, .delete "p1"⟩], 2⟩).countP
        (fun op => !(opOk gwNone op.payload)) :=
  C1_sync_failure_behavior gwNone ⟨[], [⟨1, 0, .delete "p1"⟩], 2⟩ (by decide)

/-- Counterexample to C1 as stated: with queueIds 1 and 2 where the call
for queueId 1 fails (delete) and the call for queueId 2 would succeed
(archive), replay still attempts queueId 2 — and dequeues it — instead
of stopping and leaving every later operation in the queue. -/
theorem C1_counterexample :
    (syncQueue gwDelFails true
        ⟨[], [⟨1, 0, .delete "p1"⟩, ⟨2, 1, .archive "w"⟩], 3⟩).attempted =
      [⟨1, 0, .delete "p1"⟩, ⟨2, 1, .archive "w"⟩] ∧
    (syncQueue gwDelFails true
        ⟨[], [⟨1, 0, .delete "p1"⟩, ⟨2, 1, .archive "w"⟩], 3⟩).store.queue =
      [⟨1, 0, .delete "p1"⟩] := by
  refine ⟨by decide, by decide⟩

/-- C4: an archive queued while offline freezes the week key captured
when `archiveItems` was called into the queued payload, and every
archive gateway call a later replay issues targets that captured week
key (replay has no clock input at all, so no week key can be recomputed
at replay time). -/
theorem C4_archive_week_frozen (gw : Gateway) (s : Store) (weekOf : String) (ts : Nat)
    (h : ∀ op ∈ s.queue, ∀ w, op.payload ≠ OpPayload.archive w) :
    (∃ op ∈ ((archiveItems gw false s weekOf ts).store).queue,
        op.payload = OpPayload.archive weekOf) ∧
    ∀ (gw2 : Gateway) (w : String),
      GwCall.archive w ∈
          (syncQueue gw2 true (archiveItems gw false s weekOf ts).store).gwCalls →
        w = weekOf := by
  have hq : ((archiveItems gw false s weekOf ts).store).queue =
      s.queue ++ [⟨s.nextQueueId, ts, .archive weekOf⟩] := by
    rw [archiveItems_offline]
    show (queueOperation (archiveActiveItems s) ts _).queue = _
    unfold queueOperation
    rw [archiveActiveItems_queue, archiveActiveItems_next]
  constructor
  · refine ⟨⟨s.nextQueueId, ts, .archive weekOf⟩, ?_, rfl⟩
    rw [hq]
    exact List.mem_append_right _ (List.mem_singleton.2 rfl)
  · intro gw2 w hw
    unfold SyncResult.gwCalls at hw
    have hatt : (syncQueue gw2 true (archiveItems gw false s weekOf ts).store).attempted =
        getQueuedOperations (archiveItems gw false s weekOf ts).store := by
      rw [syncQueue_eq_foldl, syncFold_attempted]
      rfl
    rw [hatt] at hw
    rcases List.mem_map.1 hw with ⟨op, hop, htc⟩
    unfold getQueuedOperations at hop
    have hmem : op ∈ ((archiveItems gw false s weekOf ts).store).queue :=
      (List.mem_insertionSort tsLe).1 hop
    rw [hq] at hmem
    rcases List.mem_append.1 hmem with hmem | hmem
    · exfalso
      cases hp : op.payload with
      | create t dd ww => rw [hp] at htc; simp [toCall] at htc
      | update i dd => rw [hp] at htc; simp [toCall] at htc
      | delete i => rw [hp] at htc; simp [toCall] at htc
      | archive w' => exact h op hmem w' hp
    · have heq : op = ⟨s.nextQueueId, ts, .archive weekOf⟩ := List.mem_singleton.1 hmem
      rw [heq] at htc
      simp [toCall] at htc
      exact htc.symm

/-- Witness for C4 on the empty store: archiving offline with week key
`2024-06-03` queues exactly that key, and any replay's archive call
targets `2024-06-03`. -/
theorem C4_witness :
    (∃ op ∈ ((archiveItems gwNone false ⟨[], [], 1⟩ "2024-06-03" 0).store).queue,
        op.payload = OpPayload.archive "2024-06-03") ∧
    ∀ (gw2 : Gateway) (w : String),
      GwCall.archive w ∈
          (syncQueue gw2 true (archiveItems gwNone false ⟨[], [], 1⟩ "2024-06-03" 0).store).gwCalls →
        w = "2024-06-03" :=
  C4_archive_week_frozen gwNone ⟨[], [], 1⟩ "2024-06-03" 0 (by simp)

/-- C2 (amended): creating an item offline and deleting it offline
before reconnecting removes the local record and queues no delete — but
the pending create for the temp id is NOT dropped: it is the one queued
operation still referring to that id (the code never cancels a queued
create on delete of a temp item). -/
theorem C2_create_delete_offline (gw gw2 : Gateway) (s : Store)
    (tempId weekOf : String) (d : Fields) (now ts ts2 : Nat)
    (h1 : isTempId tempId = true)
    (h2 : ∀ op ∈ s.queue, refersTo op tempId = false) :
    getItem (deleteItem gw2 false
        (createItem gw false s tempId weekOf d now ts).store tempId ts2).store tempId
      = none ∧
    ((deleteItem gw2 false
        (createItem gw false s tempId weekOf d now ts).store tempId ts2).store).queue.filter
        (fun op => refersTo op tempId)
      = [⟨s.nextQueueId, ts, .create tempId d weekOf⟩] ∧
    ∀ op ∈ ((deleteItem gw2 false
        (createItem gw false s tempId weekOf d now ts).store tempId ts2).store).queue,
      op.payload ≠ OpPayload.delete tempId := by
  have hs1 : (createItem gw false s tempId weekOf d now ts).store =
      queueOperation (saveItem s (mkLocalItem tempId d weekOf now)) ts
        (.create tempId d weekOf) := by
    rw [createItem_offline]
  have hget : getItem (createItem gw false s tempId weekOf d now ts).store tempId =
      some (mkLocalItem tempId d weekOf now) := by
    rw [hs1, getItem_queueOperation, getItem_saveItem]
    exact if_pos rfl
  have hdel := deleteItem_temp_offline gw2 _ tempId ts2 (mkLocalItem tempId d weekOf now)
    h1 hget
  have hqueue : ((deleteItem gw2 false
      (createItem gw false s tempId weekOf d now ts).store tempId ts2).store).queue =
      s.queue ++ [⟨s.nextQueueId, ts, .create tempId d weekOf⟩] := by
    rw [hdel]
    show (deleteItemLocal (saveItem _ _) tempId).queue = _
    rw [hs1]
    rfl
  refine ⟨?_, ?_, ?_⟩
  · rw [hdel]
    show getItem (deleteItemLocal (saveItem _ _) tempId) tempId = none
    rw [getItem_deleteItemLocal, if_pos rfl]
  · rw [hqueue, List.filter_append]
    have hnil : s.queue.filter (fun op => refersTo op tempId) = [] := by
      apply List.filter_eq_nil_iff.2
      intro a ha
      rw [h2 a ha]
      exact Bool.false_ne_true
    rw [hnil]
    simp [refersTo]
  · intro op hop hpay
    rw [hqueue] at hop
    rcases List.mem_append.1 hop with hmem | hmem
    · have hfalse := h2 op hmem
      unfold refersTo at hfalse
      rw [hpay] at hfalse
      simp at hfalse
    · have heq : op = ⟨s.nextQueueId, ts, .create tempId d weekOf⟩ :=
        List.mem_singleton.1 hmem
      rw [heq] at hpay
      cases hpay

/-- Witness for C2 from the empty store. -/
theorem C2_witness :
    getItem (deleteItem gwNone false
        (createItem gwNone false ⟨[], [], 1⟩ "temp_1" "2024-06-03"
          ⟨none, none, some "n", none, none⟩ 0 0).store "temp_1" 1).store "temp_1"
      = none ∧
    ((deleteItem gwNone false
        (createItem gwNone false ⟨[], [], 1⟩ "temp_1" "2024-06-03"
          ⟨none, none, some "n", none, none⟩ 0 0).store "temp_1" 1).store).queue.filter
        (fun op => refersTo op "temp_1")
      = [⟨1, 0, .create "temp_1" ⟨none, none, some "n", none, none⟩ "2024-06-03"⟩] ∧
    ∀ op ∈ ((deleteItem gwNone false
        (createItem gwNone false ⟨[], [], 1⟩ "temp_1" "2024-06-03"
          ⟨none, none, some "n", none, none⟩ 0 0).store "temp_1" 1).store).queue,
      op.payload ≠ OpPayload.delete "temp_1" :=
  C2_create_delete_offline gwNone gwNone ⟨[], [], 1⟩ "temp_1" "2024-06-03"
    ⟨none, none, some "n", none, none⟩ 0 0 1 (by decide) (by intro op hop; cases hop)

/-- Counterexample to C2 as stated: create offline then delete offline
leaves the queue non-empty — the queued create for the temp id is still
there, although the claim demands no queued operations at all. -/
theorem C2_counterexample :
    ((deleteItem gwNone false
        (createItem gwNone false ⟨[], [], 1⟩ "temp_1" "2024-06-03"
          ⟨none, none, some "n", none, none⟩ 0 0).store "temp_1" 1).store).queue =
      [⟨1, 0, .create "temp_1" ⟨none, none, some "n", none, none⟩ "2024-06-03"⟩] ∧
    ((deleteItem gwNone false
        (createItem gwNone false ⟨[], [], 1⟩ "temp_1" "2024-06-03"
          ⟨none, none, some "n", none, none⟩ 0 0).store "temp_1" 1).store).queue ≠ [] := by
  refine ⟨by decide, by decide⟩

/-- C3 (amended): creating offline and then updating offline leaves
exactly one queued operation referring to the item — the create — but
its payload carries the ORIGINAL creation-time field values, not the
merged/latest ones: the update is applied to the local record only and
the queued create's payload is never rewritten. -/
theorem C3_update_after_offline_create (gw gw2 : Gateway) (s : Store)
    (tempId weekOf : String) (d d2 : Fields) (now ts now2 ts2 : Nat)
    (h1 : isTempId tempId = true)
    (h2 : ∀ op ∈ s.queue, refersTo op tempId = false) :
    ((updateItem gw2 false
        (createItem gw false s tempId weekOf d now ts).store tempId d2 now2 ts2).store).queue.filter
        (fun op => refersTo op tempId)
      = [⟨s.nextQueueId, ts, .create tempId d weekOf⟩] ∧
    getItem ((updateItem gw2 false
        (createItem gw false s tempId weekOf d now ts).store tempId d2 now2 ts2).store) tempId
      = some { applyFields (mkLocalItem tempId d weekOf now) d2 with
               updated_at := now2, synced := false } := by
  have hs1 : (createItem gw false s tempId weekOf d now ts).store =
      queueOperation (saveItem s (mkLocalItem tempId d weekOf now)) ts
        (.create tempId d weekOf) := by
    rw [createItem_offline]
  have hget : getItem (createItem gw false s tempId weekOf d now ts).store tempId =
      some (mkLocalItem tempId d weekOf now) := by
    rw [hs1, getItem_queueOperation, getItem_saveItem]
    exact if_pos rfl
  have hupd := updateItem_temp gw2 false _ tempId d2 now2 ts2
    (mkLocalItem tempId d weekOf now) h1 hget
  constructor
  · rw [hupd]
    show ((saveItem _ _).queue.filter _) = _
    have hqueue : (saveItem (createItem gw false s tempId weekOf d now ts).store
        { applyFields (mkLocalItem tempId d weekOf now) d2 with
          updated_at := now2, synced := false }).queue =
        s.queue ++ [⟨s.nextQueueId, ts, .create tempId d weekOf⟩] := by
      rw [hs1]
      rfl
    rw [hqueue, List.filter_append]
    have hnil : s.queue.filter (fun op => refersTo op tempId) = [] := by
      apply List.filter_eq_nil_iff.2
      intro a ha
      rw [h2 a ha]
      exact Bool.false_ne_true
    rw [hnil]
    simp [refersTo]
  · rw [hupd]
    show getItem (saveItem _ _) tempId = _
    rw [getItem_saveItem]
    exact if_pos rfl

/-- Witness for C3 from the empty store: the local record carries the
updated notes while the queued create still carries the original. -/
theorem C3_witness :
    ((updateItem gwNone false
        (createItem gwNone false ⟨[], [], 1⟩ "temp_1" "2024-06-03"
          ⟨none, none, some "a", none, none⟩ 0 0).store "temp_1"
        ⟨none, none, some "b", none, none⟩ 1 1).store).queue.filter
        (fun op => refersTo op "temp_1")
      = [⟨1, 0, .create "temp_1" ⟨none, none, some "a", none, none⟩ "2024-06-03"⟩] ∧
    getItem ((updateItem gwNone false
        (createItem gwNone false ⟨[], [], 1⟩ "temp_1" "2024-06-03"
          ⟨none, none, some "a", none, none⟩ 0 0).store "temp_1"
        ⟨none, none, some "b", none, none⟩ 1 1).store) "temp_1"
      = some { applyFields (mkLocalItem "temp_1" ⟨none, none, some "a", none, none⟩
                  "2024-06-03" 0) ⟨none, none, some "b", none, none⟩ with
               updated_at := 1, synced := false } :=
  C3_update_after_offline_create gwNone gwNone ⟨[], [], 1⟩ "temp_1" "2024-06-03"
    ⟨none, none, some "a", none, none⟩ ⟨none, none, some "b", none, none⟩ 0 0 1 1
    (by decide) (by intro op hop; cases hop)

/-- Counterexample to C3 as stated: after create offline (notes "a") and
update offline (notes "b"), the single queued create still carries
notes "a" while the local record carries "b" — the queued payload does
not hold the merged/latest field values. -/
theorem C3_counterexample :
    ((updateItem gwNone false
        (createItem gwNone false ⟨[], [], 1⟩ "temp_1" "2024-06-03"
          ⟨none, none, some "a", none, none⟩ 0 0).store "temp_1"
        ⟨none, none, some "b", none, none⟩ 1 1).store).queue =
      [⟨1, 0, .create "temp_1" ⟨none, none, some "a", none, none⟩ "2024-06-03"⟩] ∧
    getItem ((updateItem gwNone false
        (createItem gwNone false ⟨[], [], 1⟩ "temp_1" "2024-06-03"
          ⟨none, none, some "a", none, none⟩ 0 0).store "temp_1"
        ⟨none, none, some "b", none, none⟩ 1 1).store) "temp_1"
      = some ⟨"temp_1", none, none, some "b", none, "active", "2024-06-03", 0, 1, false⟩ := by
  refine ⟨by decide, by decide⟩

/-- C8 (amended): an offline create writes its record with
`synced = false`, and an offline delete of a permanent record leaves it
`status = "deleted", synced = false`; but an offline update of a
permanent record PRESERVES its existing `synced` flag (the code forces
`synced: false` only for temp ids), and an offline archive preserves
each archived record's `synced` flag while setting
`status = "archived"` — so not every offline mutation leaves the
affected records with `synced = false`. -/
theorem C8_offline_synced_flags (gw : Gateway) (s : Store)
    (id tempId weekOf : String) (d : Fields) (now ts : Nat) (ex it : Item)
    (hex : getItem s id = some ex) (hperm : isTempId id = false)
    (hnd : (s.items.map (fun x => x.id)).Nodup)
    (hit : it ∈ s.items) (hact : it.status = "active") :
    getItem (createItem gw false s tempId weekOf d now ts).store tempId
      = some (mkLocalItem tempId d weekOf now) ∧
    (mkLocalItem tempId d weekOf now).synced = false ∧
    getItem (updateItem gw false s id d now ts).store id
      = some { applyFields ex d with updated_at := now, synced := ex.synced } ∧
    getItem (deleteItem gw false s id ts).store id
      = some { ex with status := "deleted", synced := false } ∧
    getItem (archiveItems gw false s weekOf ts).store it.id
      = some { it with status := "archived" } := by
  have hid : ex.id = id := getItem_some_id s id ex hex
  refine ⟨?_, rfl, ?_, ?_, ?_⟩
  · rw [createItem_offline]
    show getItem (queueOperation (saveItem s _) ts _) tempId = _
    rw [getItem_queueOperation, getItem_saveItem]
    exact if_pos rfl
  · rw [updateItem_offline_perm gw s id d now ts ex hperm hex]
    show getItem (queueOperation (saveItem s _) ts _) id = _
    rw [getItem_queueOperation, getItem_saveItem]
    exact if_pos hid
  · rw [deleteItem_offline_perm gw s id ts ex hperm hex]
    show getItem (queueOperation (saveItem s _) ts _) id = _
    rw [getItem_queueOperation, getItem_saveItem]
    exact if_pos hid
  · rw [archiveItems_offline]
    show getItem (queueOperation (archiveActiveItems s) ts _) it.id = _
    rw [getItem_queueOperation]
    exact getItem_archiveActiveItems s it hnd hit hact

/-- Witness for C8 on a store holding one synced active permanent item. -/
theorem C8_witness :
    getItem (createItem gwNone false
        ⟨[⟨"p1", none, none, none, none, "active", "2024-06-03", 0, 0, true⟩], [], 1⟩
        "temp_1" "2024-06-03" ⟨none, none, none, none, none⟩ 5 6).store "temp_1"
      = some (mkLocalItem "temp_1" ⟨none, none, none, none, none⟩ "2024-06-03" 5) ∧
    (mkLocalItem "temp_1" ⟨none, none, none, none, none⟩ "2024-06-03" 5).synced = false ∧
    getItem (updateItem gwNone false
        ⟨[⟨"p1", none, none, none, none, "active", "2024-06-03", 0, 0, true⟩], [], 1⟩
        "p1" ⟨none, none, none, none, none⟩ 5 6).store "p1"
      = some { applyFields ⟨"p1", none, none, none, none, "active", "2024-06-03", 0, 0, true⟩
                  ⟨none, none, none, none, none⟩ with
               updated_at := 5,
               synced := (⟨"p1", none, none, none, none, "active", "2024-06-03", 0, 0,
                  true⟩ : Item).synced } ∧
    getItem (deleteItem gwNone false
        ⟨[⟨"p1", none, none, none, none, "active", "2024-06-03", 0, 0, true⟩], [], 1⟩
        "p1" 6).store "p1"
      = some { (⟨"p1", none, none, none, none, "active", "2024-06-03", 0, 0, true⟩ : Item) with
               status := "deleted", synced := false } ∧
    getItem (archiveItems gwNone false
        ⟨[⟨"p1", none, none, none, none, "active", "2024-06-03", 0, 0, true⟩], [], 1⟩
        "2024-06-03" 6).store
        (⟨"p1", none, none, none, none, "active", "2024-06-03", 0, 0, true⟩ : Item).id
      = some { (⟨"p1", none, none, none, none, "active", "2024-06-03", 0, 0, true⟩ : Item) with
               status := "archived" } :=
  C8_offline_synced_flags gwNone
    ⟨[⟨"p1", none, none, none, none, "active", "2024-06-03", 0, 0, true⟩], [], 1⟩
    "p1" "temp_1" "2024-06-03" ⟨none, none, none, none, none⟩ 5 6
    ⟨"p1", none, none, none, none, "active", "2024-06-03", 0, 0, true⟩
    ⟨"p1", none, none, none, none, "active", "2024-06-03", 0, 0, true⟩
    (by decide) (by decide) (by decide) (by decide) (by decide)

/-- Counterexample to C8 as stated: archiving offline is a mutation, yet
the affected record keeps `synced = true` (its flag is merely spread
through), contradicting "leaves each affected local record with
synced = false". -/
theorem C8_counterexample :
    getItem (archiveItems gwNone false
        ⟨[⟨"p1", none, none, none, none, "active", "2024-06-03", 0, 0, true⟩], [], 1⟩
        "2024-06-10" 7).store "p1"
      = some ⟨"p1", none, none, none, none, "archived", "2024-06-03", 0, 0, true⟩ := by
  decide

end Sendnotes
